import Mathlib

/-!
# killIdleProcess: a verification development

A shallow embedding of `src/ps/process.go`, `src/ps/process_windows.go` and
`src/main.go`.

* Go's `int64` / `time.Duration` values are integers with an explicit
  two's-complement wrap (`wrapInt64`) after every arithmetic operation.
* `uint32`, `uint16` and `uintptr` values are natural numbers.
* Go's `int` is taken to be 64 bits wide (GOARCH amd64 / arm64).
* Operating-system calls are arbitrary functions on an abstract kernel state;
  the model keeps a bag of open handles and a log of the calls beside it.
-/

namespace KillIdleProcess

/-! ## Durations and the Filetime conversion -/

/-- Two's-complement reduction of an integer into the range of Go's `int64`. -/
def wrapInt64 (x : Int) : Int := (x + 2 ^ 63) % 2 ^ 64 - 2 ^ 63

/-- Addition of two `time.Duration` (`int64`) values as Go computes it. -/
def durationAdd (a b : Int) : Int := wrapInt64 (a + b)

/-- The constant `time.Millisecond`, in nanoseconds. -/
def Millisecond : Int := 1000000

/-- The constant `time.Second`, in nanoseconds. -/
def Second : Int := 1000000000

/-- The struct `syscall.Filetime`: two `uint32` fields. -/
structure Filetime where
  LowDateTime : Nat
  HighDateTime : Nat
deriving DecidableEq, Repr

/-- Both fields of a `Filetime` are `uint32` values. -/
def Filetime.WellFormed (ft : Filetime) : Prop :=
  ft.LowDateTime < 2 ^ 32 ∧ ft.HighDateTime < 2 ^ 32

instance (ft : Filetime) : Decidable ft.WellFormed := by
  unfold Filetime.WellFormed; infer_instance

/-- The single 64-bit tick count `HighDateTime << 32 | LowDateTime`. -/
def Filetime.ticks (ft : Filetime) : Nat := ft.HighDateTime <<< 32 ||| ft.LowDateTime

/-- The local `n` of `filetimeToDuration`:
`int64(ft.HighDateTime)<<32 + int64(ft.LowDateTime)`. -/
def filetimeTicksInt64 (ft : Filetime) : Int :=
  wrapInt64 (wrapInt64 ((ft.HighDateTime : Int) * 2 ^ 32) + (ft.LowDateTime : Int))

/-- The function `filetimeToDuration` of `process_windows.go`:
`time.Duration(n * 100)`. -/
def filetimeToDuration (ft : Filetime) : Int :=
  wrapInt64 (filetimeTicksInt64 ft * 100)

/-- The struct `CPUTimes` of `process.go`. -/
structure CPUTimes where
  User : Int
  System : Int
deriving DecidableEq, Repr

/-- The comparison of `main.go` line 32 with the threshold as a parameter:
`cpuTime.User+cpuTime.System > threshold`. -/
def exceedsThreshold (threshold : Int) (cpuTime : CPUTimes) : Bool :=
  decide (durationAdd cpuTime.User cpuTime.System > threshold)

/-- The threshold written in `main.go`: `time.Duration(500*time.Millisecond)`. -/
def killThreshold : Int := 500 * Millisecond

/-- The condition of the `if` of `main.go` line 32, the kill decision of the
watchdog loop: `cpuTime.User+cpuTime.System > time.Duration(500*time.Millisecond)`. -/
def shouldKill (cpuTime : CPUTimes) : Bool :=
  exceedsThreshold killThreshold cpuTime

/-! ## Errors, results and the process records -/

/-- Values of Go's `error` interface that occur in the program. -/
inductive GoError where
  | errno (code : Nat)
  | errorf (text : String)
deriving DecidableEq, Repr

/-- How a Go call ends: normally with a value, normally with a non-nil
`error`, or by a run-time panic that nothing in the program recovers. -/
inductive Result (α : Type) where
  | ok (val : α)
  | error (err : GoError)
  | panic (msg : String)
deriving DecidableEq, Repr

deriving instance DecidableEq for Except

/-- The constant `MAX_PATH`. -/
def MAX_PATH : Nat := 260

/-- The constant `ERROR_NO_MORE_FILES`. -/
def ERROR_NO_MORE_FILES : Nat := 0x12

/-- The constant `syscall.PROCESS_QUERY_INFORMATION`. -/
def PROCESS_QUERY_INFORMATION : Nat := 0x0400

/-- The value `INVALID_HANDLE_VALUE` as a 64-bit `uintptr`. -/
def INVALID_HANDLE_VALUE : Nat := 2 ^ 64 - 1

/-- The struct `PROCESSENTRY32`; `ExeFile` is the array `[MAX_PATH]uint16`. -/
structure PROCESSENTRY32 where
  Size : Nat
  CntUsage : Nat
  ProcessID : Nat
  DefaultHeapID : Nat
  ModuleID : Nat
  CntThreads : Nat
  ParentProcessID : Nat
  PriorityClassBase : Int
  Flags : Nat
  ExeFile : List Nat
deriving DecidableEq, Repr

/-- The struct `WindowsProcess`. -/
structure WindowsProcess where
  pid : Int
  ppid : Int
  exe : String
deriving DecidableEq, Repr

/-- The method `Pid`. -/
def WindowsProcess.Pid (p : WindowsProcess) : Int := p.pid

/-- The method `PPid`. -/
def WindowsProcess.PPid (p : WindowsProcess) : Int := p.ppid

/-- The method `Executable`. -/
def WindowsProcess.Executable (p : WindowsProcess) : String := p.exe

/-- The scan of `newWindowsProcess`: `for { if e.ExeFile[end] == 0 { break }; end++ }`.
The list is the part of the array from index `end` on, so that `e.ExeFile[end]`
is its head; when nothing is left, `end` is the length of the array and the
index expression panics (`none`). -/
def scanExeFile : List Nat → Nat → Option Nat
  | [], _ => none
  | c :: rest, end_ => if c = 0 then some end_ else scanExeFile rest (end_ + 1)

/-- The function `newWindowsProcess`. `UTF16ToString` stands for the standard
library's `syscall.UTF16ToString`; `e.ExeFile[:end]` is `ExeFile.take end`. -/
def newWindowsProcess (UTF16ToString : List Nat → String) (e : PROCESSENTRY32) :
    Option WindowsProcess :=
  match scanExeFile e.ExeFile 0 with
  | none => none
  | some end_ =>
    some { pid := (e.ProcessID : Int)
           ppid := (e.ParentProcessID : Int)
           exe := UTF16ToString (e.ExeFile.take end_) }

/-! ## The operating system -/

/-- The four out-parameters of `syscall.GetProcessTimes`. -/
structure ProcessTimes where
  creationTime : Filetime
  exitTime : Filetime
  kernelTime : Filetime
  userTime : Filetime
deriving DecidableEq, Repr

/-- Everything outside the repository that the `ps` package calls. Each
operating-system call is an arbitrary function of an abstract state `σ`.
`Process32Walk handle` is the finite sequence of entries that
`Process32FirstW` and the `Process32NextW` calls after it write into the
buffer before the first of them returns 0. -/
structure Env (σ : Type) where
  UTF16ToString : List Nat → String
  OpenProcess : Nat → Nat → σ → Except GoError Nat × σ
  GetProcessTimes : Nat → σ → Except GoError ProcessTimes × σ
  CloseHandle : Nat → σ → σ
  CreateToolhelp32Snapshot : Nat → Nat → σ → Nat × σ
  Process32Walk : Nat → σ → List PROCESSENTRY32
  GetLastError : σ → GoError
  osFindProcess : Int → σ → Except GoError Nat × σ
  osProcessKill : Nat → σ → Option GoError × σ

/-- One call into the operating system, with its outcome. -/
inductive Syscall where
  | OpenProcess (da pid : Nat) (handle : Option Nat)
  | GetProcessTimes (handle : Nat) (succeeded : Bool)
  | CloseHandle (handle : Nat)
  | CreateToolhelp32Snapshot (handle : Nat)
  | Process32First (handle : Nat) (ret : Bool)
  | Process32Next (handle : Nat) (ret : Bool)
deriving DecidableEq, Repr

/-- The operating-system state together with the bag of handles that are open
and the log of the calls made so far. -/
structure World (σ : Type) where
  os : σ
  openHandles : List Nat
  log : List Syscall
deriving DecidableEq, Repr

variable {σ : Type}

/-- Append one call to the log. -/
def record (c : Syscall) (w : World σ) : World σ :=
  { os := w.os, openHandles := w.openHandles, log := w.log ++ [c] }

/-- The call `syscall.OpenProcess(da, false, pid)`: a granted handle becomes open. -/
def openProcess (E : Env σ) (da pid : Nat) (w : World σ) : Except GoError Nat × World σ :=
  match E.OpenProcess da pid w.os with
  | (.ok handle, s) =>
    (.ok handle, { os := s, openHandles := handle :: w.openHandles
                   log := w.log ++ [.OpenProcess da pid (some handle)] })
  | (.error err, s) =>
    (.error err, { os := s, openHandles := w.openHandles
                   log := w.log ++ [.OpenProcess da pid none] })

/-- The call `syscall.GetProcessTimes`. -/
def getProcessTimes (E : Env σ) (handle : Nat) (w : World σ) :
    Except GoError ProcessTimes × World σ :=
  match E.GetProcessTimes handle w.os with
  | (.ok times, s) =>
    (.ok times, { os := s, openHandles := w.openHandles
                  log := w.log ++ [.GetProcessTimes handle true] })
  | (.error err, s) =>
    (.error err, { os := s, openHandles := w.openHandles
                   log := w.log ++ [.GetProcessTimes handle false] })

/-- The call `CloseHandle(handle)`: the handle leaves the bag of open handles. -/
def closeHandle (E : Env σ) (handle : Nat) (w : World σ) : World σ :=
  { os := E.CloseHandle handle w.os, openHandles := w.openHandles.erase handle
    log := w.log ++ [.CloseHandle handle] }

/-- The call `procCreateToolhelp32Snapshot.Call(0x00000002, 0)`: every returned
value but `INVALID_HANDLE_VALUE` is a snapshot handle that is now open. -/
def createToolhelp32Snapshot (E : Env σ) (w : World σ) : Nat × World σ :=
  match E.CreateToolhelp32Snapshot 0x00000002 0 w.os with
  | (handle, s) =>
    (handle, { os := s
               openHandles :=
                 if handle = INVALID_HANDLE_VALUE then w.openHandles
                 else handle :: w.openHandles
               log := w.log ++ [.CreateToolhelp32Snapshot handle] })

/-! ## The package `ps` on Windows -/

/-- The array literal `[4]uint32{syscall.PROCESS_QUERY_INFORMATION}` of
`getProcessHandle`: four elements, the three that are not written are zero. -/
def permissionTable : List Nat := [PROCESS_QUERY_INFORMATION, 0, 0, 0]

/-- The `for ... range` loop of `getProcessHandle` over the rest of the table.
`last` holds the named results `handle, err` as the previous attempt left them. -/
def getProcessHandleLoop (E : Env σ) (pid : Int) :
    List Nat → Except GoError Nat → World σ → Except GoError Nat × World σ
  | [], last, w => (last, w)
  | permissions :: rest, _, w =>
    match openProcess E permissions (pid % 2 ^ 32).toNat w with
    | (.ok handle, w1) => (.ok handle, w1)
    | (.error err, w1) => getProcessHandleLoop E pid rest (.error err) w1

/-- The function `getProcessHandle`; the named results start as `0, nil`. -/
def getProcessHandle (E : Env σ) (pid : Int) (w : World σ) : Except GoError Nat × World σ :=
  getProcessHandleLoop E pid permissionTable (.ok 0) w

/-- The method `CPUTime`; the deferred `CloseHandle` runs on both paths that
follow a successful `getProcessHandle`. -/
def WindowsProcess.CPUTime (E : Env σ) (p : WindowsProcess) (w : World σ) :
    Except GoError CPUTimes × World σ :=
  match getProcessHandle E p.pid w with
  | (.error err, w1) => (.error err, w1)
  | (.ok handle, w1) =>
    match getProcessTimes E handle w1 with
    | (.error err, w2) => (.error err, closeHandle E handle w2)
    | (.ok times, w2) =>
      (.ok { User := filetimeToDuration times.userTime
             System := filetimeToDuration times.kernelTime },
       closeHandle E handle w2)

/-- The method `Kill`: `os.FindProcess` followed by `process.Kill`. -/
def WindowsProcess.Kill (E : Env σ) (p : WindowsProcess) (w : World σ) :
    Option GoError × World σ :=
  match E.osFindProcess p.pid w.os with
  | (.error err, s) => (some err, { os := s, openHandles := w.openHandles, log := w.log })
  | (.ok process, s) =>
    match E.osProcessKill process s with
    | (some err, s1) => (some err, { os := s1, openHandles := w.openHandles, log := w.log })
    | (none, s1) => (none, { os := s1, openHandles := w.openHandles, log := w.log })

/-- The `for` loop of `processes`: `entry` is the buffer as the last successful
call left it, `rest` what the following `Process32NextW` calls will write. -/
def processesLoop (E : Env σ) (handle : Nat) :
    PROCESSENTRY32 → List PROCESSENTRY32 → List WindowsProcess → World σ →
      Result (List WindowsProcess) × World σ
  | entry, [], results, w =>
    match newWindowsProcess E.UTF16ToString entry with
    | none => (.panic "index out of range", w)
    | some p => (.ok (results ++ [p]), record (.Process32Next handle false) w)
  | entry, next :: rest, results, w =>
    match newWindowsProcess E.UTF16ToString entry with
    | none => (.panic "index out of range", w)
    | some p =>
      processesLoop E handle next rest (results ++ [p]) (record (.Process32Next handle true) w)

/-- The function `processes`. The deferred `procCloseHandle.Call(handle)` runs
on every path after the `defer` statement, the panicking one included. -/
def processes (E : Env σ) (w : World σ) : Result (List WindowsProcess) × World σ :=
  match createToolhelp32Snapshot E w with
  | (handle, w1) =>
    if handle < 0 then (.error (E.GetLastError w1.os), w1)
    else
      match E.Process32Walk handle w1.os with
      | [] =>
        (.error (.errorf "Error retrieving process info."),
         closeHandle E handle (record (.Process32First handle false) w1))
      | entry :: rest =>
        match processesLoop E handle entry rest [] (record (.Process32First handle true) w1) with
        | (r, w2) => (r, closeHandle E handle w2)

/-- The search loop of `findProcess`; `none` is the result `nil, nil`. -/
def findProcessLoop (pid : Int) : List WindowsProcess → Option WindowsProcess
  | [] => none
  | p :: ps => if p.Pid = pid then some p else findProcessLoop pid ps

/-- The function `findProcess`. -/
def findProcess (E : Env σ) (pid : Int) (w : World σ) :
    Result (Option WindowsProcess) × World σ :=
  match processes E w with
  | (.error err, w1) => (.error err, w1)
  | (.panic msg, w1) => (.panic msg, w1)
  | (.ok ps, w1) => (.ok (findProcessLoop pid ps), w1)

/-- The loop of `filterProcesses` that appends every matching record to
`filtered`. -/
def filterProcessesLoop (name : String) :
    List WindowsProcess → List WindowsProcess → List WindowsProcess
  | [], filtered => filtered
  | v :: rest, filtered =>
    if v.Executable = name then filterProcessesLoop name rest (filtered ++ [v])
    else filterProcessesLoop name rest filtered

/-- The function `filterProcesses`. -/
def filterProcesses (E : Env σ) (name : String) (w : World σ) :
    Result (List WindowsProcess) × World σ :=
  match processes E w with
  | (.error err, w1) => (.error err, w1)
  | (.panic msg, w1) => (.panic msg, w1)
  | (.ok processes, w1) => (.ok (filterProcessesLoop name processes []), w1)

/-- The exported `Processes` of `process.go`. -/
def Processes (E : Env σ) (w : World σ) : Result (List WindowsProcess) × World σ :=
  processes E w

/-- The exported `FindProcess` of `process.go`. -/
def FindProcess (E : Env σ) (pid : Int) (w : World σ) :
    Result (Option WindowsProcess) × World σ :=
  findProcess E pid w

/-- The exported `FilterProcesses` of `process.go`. -/
def FilterProcesses (E : Env σ) (name : String) (w : World σ) :
    Result (List WindowsProcess) × World σ :=
  filterProcesses E name w

/-! ## The watchdog loop of `main.go` -/

/-- What `main.go` uses of the package `ps`: `ps.FilterProcesses` and the
methods `CPUTime` and `Kill` of the interface `ps.Process`, each an arbitrary
function of the provider's state. -/
structure Provider (σ P : Type) where
  FilterProcesses : String → σ → Result (List P) × σ
  CPUTime : P → σ → Result CPUTimes × σ
  Kill : P → σ → Result Unit × σ

/-- What one run of the loop body does that can be observed from outside. -/
inductive MainEvent (P : Type) where
  | callCPUTime (proc : P) (outcome : Result CPUTimes)
  | printObservation (proc : P) (cpuTime : CPUTimes)
  | printKilling (proc : P)
  | callKill (proc : P) (outcome : Result Unit)
  | logFatal (err : GoError)
  | sleep (d : Int)
deriving DecidableEq, Repr

/-- How a cycle ends: it ran to its end, `log.Fatal` ended the program with
the given error, or an unrecovered panic did. -/
inductive CycleExit where
  | completed
  | fatal (err : GoError)
  | panicked (msg : String)
deriving DecidableEq, Repr

variable {P : Type}

/-- The constant `appName`. -/
def appName : String := "notepad.exe"

/-- The inner loop `for _, proc := range processes` of `main`. -/
def rangeProcesses (prov : Provider σ P) : List P → σ → CycleExit × σ × List (MainEvent P)
  | [], s => (.completed, s, [])
  | proc :: rest, s =>
    match prov.CPUTime proc s with
    | (.error err, s1) => (.fatal err, s1, [.callCPUTime proc (.error err), .logFatal err])
    | (.panic msg, s1) => (.panicked msg, s1, [.callCPUTime proc (.panic msg)])
    | (.ok cpuTime, s1) =>
      if shouldKill cpuTime then
        match prov.Kill proc s1 with
        | (.error err, s2) =>
          (.fatal err, s2,
           [.callCPUTime proc (.ok cpuTime), .printObservation proc cpuTime,
            .printKilling proc, .callKill proc (.error err), .logFatal err])
        | (.panic msg, s2) =>
          (.panicked msg, s2,
           [.callCPUTime proc (.ok cpuTime), .printObservation proc cpuTime,
            .printKilling proc, .callKill proc (.panic msg)])
        | (.ok u, s2) =>
          match rangeProcesses prov rest s2 with
          | (exit, s3, events) =>
            (exit, s3,
             [.callCPUTime proc (.ok cpuTime), .printObservation proc cpuTime,
              .printKilling proc, .callKill proc (.ok u)] ++ events)
      else
        match rangeProcesses prov rest s1 with
        | (exit, s3, events) =>
          (exit, s3, [.callCPUTime proc (.ok cpuTime), .printObservation proc cpuTime] ++ events)

/-- One pass through the body of the outer `for` of `main`. -/
def cycle (prov : Provider σ P) (s : σ) : CycleExit × σ × List (MainEvent P) :=
  match prov.FilterProcesses appName s with
  | (.error err, s1) => (.fatal err, s1, [.logFatal err])
  | (.panic msg, s1) => (.panicked msg, s1, [])
  | (.ok processes, s1) =>
    match rangeProcesses prov processes s1 with
    | (.completed, s2, events) => (.completed, s2, events ++ [.sleep (10 * Second)])
    | (exit, s2, events) => (exit, s2, events)

/-- The function `main`, cut off after `cycles` passes of its endless loop. -/
def main (prov : Provider σ P) : Nat → σ → CycleExit × σ × List (MainEvent P)
  | 0, s => (.completed, s, [])
  | cycles + 1, s =>
    match cycle prov s with
    | (.completed, s1, events) =>
      match main prov cycles s1 with
      | (exit, s2, later) => (exit, s2, events ++ later)
    | (exit, s1, events) => (exit, s1, events)

/-- The package `ps` on Windows as the provider of `main.go`. -/
def windowsProvider (E : Env σ) : Provider (World σ) WindowsProcess where
  FilterProcesses := FilterProcesses E
  CPUTime := fun p w =>
    match p.CPUTime E w with
    | (.ok cpuTime, w1) => (.ok cpuTime, w1)
    | (.error err, w1) => (.error err, w1)
  Kill := fun p w =>
    match p.Kill E w with
    | (none, w1) => (.ok (), w1)
    | (some err, w1) => (.error err, w1)

/-! ## Readings of a cycle's events -/

/-- Every call that the inner loop of `main` makes on the records of the list,
when it starts on them in state `s`, is answered without error: the `CPUTime`
query of the first record returns a sample, its `Kill`, which is called only
when the sample is over the threshold, returns `nil`, and so on for the
records after it in the state that these calls leave. -/
def callsSucceed (prov : Provider σ P) : List P → σ → Prop
  | [], _ => True
  | proc :: rest, s =>
    ∃ cpuTime s1, prov.CPUTime proc s = (.ok cpuTime, s1) ∧
      ((shouldKill cpuTime = true ∧
          ∃ u s2, prov.Kill proc s1 = (.ok u, s2) ∧ callsSucceed prov rest s2) ∨
       (shouldKill cpuTime = false ∧ callsSucceed prov rest s1))

/-! ## Readings of the system-call log -/

/-- The handles that the calls of a log opened, in order. -/
def openedBy : List Syscall → List Nat
  | [] => []
  | .OpenProcess _ _ (some handle) :: rest => handle :: openedBy rest
  | .CreateToolhelp32Snapshot handle :: rest =>
    if handle = INVALID_HANDLE_VALUE then openedBy rest else handle :: openedBy rest
  | _ :: rest => openedBy rest

/-- The handles that the calls of a log passed to `CloseHandle`, in order. -/
def closedBy : List Syscall → List Nat
  | [] => []
  | .CloseHandle handle :: rest => handle :: closedBy rest
  | _ :: rest => closedBy rest

/-- Whether an outcome of `OpenProcess` grants a handle. -/
def isGranted (r : Except GoError Nat) : Bool :=
  match r with
  | .ok _ => true
  | .error _ => false

/-- The handle an outcome of `OpenProcess` grants, if any. -/
def grantedHandle (r : Except GoError Nat) : Option Nat :=
  match r with
  | .ok handle => some handle
  | .error _ => none

/-! ## Concrete inputs for the examples -/

/-- A decoder for the examples: every code unit is taken as one character. -/
def plainUTF16ToString (s : List Nat) : String := String.mk (s.map Char.ofNat)

/-- A snapshot entry for `notepad.exe`, process 4242, child of process 4. -/
def notepadEntry : PROCESSENTRY32 where
  Size := 568
  CntUsage := 0
  ProcessID := 4242
  DefaultHeapID := 0
  ModuleID := 0
  CntThreads := 3
  ParentProcessID := 4
  PriorityClassBase := 8
  Flags := 0
  ExeFile := [110, 111, 116, 101, 112, 97, 100, 46, 101, 120, 101] ++ List.replicate 249 0

/-- A snapshot entry for `System`, process 4. -/
def systemEntry : PROCESSENTRY32 where
  Size := 568
  CntUsage := 0
  ProcessID := 4
  DefaultHeapID := 0
  ModuleID := 0
  CntThreads := 90
  ParentProcessID := 0
  PriorityClassBase := 8
  Flags := 0
  ExeFile := [83, 121, 115, 116, 101, 109] ++ List.replicate 254 0

/-- An operating system that follows a script. Its state counts the
`GetProcessTimes` calls made so far; `grant` answers `OpenProcess` by access
mask, `times` answers the successive `GetProcessTimes` calls, `snapshot` is
what `CreateToolhelp32Snapshot` returns and `walk` what the snapshot holds. -/
def scriptedEnv (grant : Nat → Except GoError Nat) (times : Nat → Except GoError ProcessTimes)
    (snapshot : Nat) (walk : List PROCESSENTRY32) : Env Nat where
  UTF16ToString := plainUTF16ToString
  OpenProcess := fun da _ s => (grant da, s)
  GetProcessTimes := fun _ s => (times s, s + 1)
  CloseHandle := fun _ s => s
  CreateToolhelp32Snapshot := fun _ _ s => (snapshot, s)
  Process32Walk := fun _ _ => walk
  GetLastError := fun _ => .errno 6
  osFindProcess := fun pid s => (.ok pid.toNat, s)
  osProcessKill := fun _ s => (none, s)

/-- A world with nothing open and nothing logged. -/
def freshWorld : World Nat := { os := 0, openHandles := [], log := [] }

/-- The record of `notepadEntry`. -/
def notepadProcess : WindowsProcess := { pid := 4242, ppid := 4, exe := "notepad.exe" }

/-- Process times with the given user and kernel tick counters. -/
def timesOfTicks (user kernel : Filetime) : ProcessTimes :=
  { creationTime := ⟨0, 0⟩, exitTime := ⟨0, 0⟩, kernelTime := kernel, userTime := user }

/-- The Filetime of 92233720368547758 ticks, the largest whose hundredfold is
below 2^63. -/
def lastExactFiletime : Filetime := { LowDateTime := 2061584302, HighDateTime := 21474836 }

/-- The Filetime of 92233720368547759 ticks, one tick later. -/
def firstWrappedFiletime : Filetime := { LowDateTime := 2061584303, HighDateTime := 21474836 }

/-- A script of `GetProcessTimes` in which the user counter goes from
92233720368547758 ticks at the first query to 92233720368547759 at the second. -/
def overflowingTimes (n : Nat) : Except GoError ProcessTimes :=
  if n = 0 then .ok (timesOfTicks lastExactFiletime ⟨0, 0⟩)
  else .ok (timesOfTicks firstWrappedFiletime ⟨0, 0⟩)

/-- The scripted operating system of the counterexample to monotonicity. -/
def overflowEnv : Env Nat := scriptedEnv (fun _ => .ok 7) overflowingTimes 9 []

/-- A script of `GetProcessTimes` in which the user counter goes from 0.3s to
0.6s and the kernel counter stays at 0.1s. -/
def growingTimes (n : Nat) : Except GoError ProcessTimes :=
  if n = 0 then .ok (timesOfTicks ⟨3000000, 0⟩ ⟨1000000, 0⟩)
  else .ok (timesOfTicks ⟨6000000, 0⟩ ⟨1000000, 0⟩)

/-- The record of `systemEntry`. -/
def systemProcess : WindowsProcess := { pid := 4, ppid := 0, exe := "System" }

/-- The scripted operating system of the examples: `OpenProcess` grants handle
7 at every level, the snapshot has handle 9 and holds `System` and
`notepad.exe`. -/
def exampleEnv : Env Nat :=
  scriptedEnv (fun _ => .ok 7) growingTimes 9 [systemEntry, notepadEntry]

/-- The world that one enumeration of `exampleEnv` leaves behind `freshWorld`. -/
def afterEnumeration : World Nat :=
  { os := 0, openHandles := []
    log := [.CreateToolhelp32Snapshot 9, .Process32First 9 true, .Process32Next 9 true,
            .Process32Next 9 false, .CloseHandle 9] }

/-- An `OpenProcess` that refuses `PROCESS_QUERY_INFORMATION` with
`ERROR_ACCESS_DENIED` and grants handle 7 to the access mask 0. -/
def fallbackGrant (da : Nat) : Except GoError Nat :=
  if da = 0 then .ok 7 else .error (.errno 5)

/-- The sample that `CPUTime` builds from a user counter of 92233720368547758
ticks and a kernel counter of one tick: 9223372036854775800ns and 100ns. -/
def overflowingSample : CPUTimes :=
  { User := filetimeToDuration lastExactFiletime
    System := filetimeToDuration { LowDateTime := 1, HighDateTime := 0 } }

/-! ## Arithmetic of `int64` -/

theorem wrapInt64_eq_self {x : Int} (h1 : -2 ^ 63 ≤ x) (h2 : x < 2 ^ 63) : wrapInt64 x = x := by
  unfold wrapInt64
  rw [Int.emod_eq_of_lt (by omega) (by omega)]
  omega

theorem wrapInt64_range (x : Int) : -2 ^ 63 ≤ wrapInt64 x ∧ wrapInt64 x < 2 ^ 63 := by
  unfold wrapInt64
  omega

theorem wrapInt64_emod (x : Int) : wrapInt64 x % 2 ^ 64 = x % 2 ^ 64 := by
  unfold wrapInt64
  omega

theorem wrapInt64_congr {x y : Int} (h : x % 2 ^ 64 = y % 2 ^ 64) :
    wrapInt64 x = wrapInt64 y := by
  unfold wrapInt64
  omega

theorem wrapInt64_add_left (a b : Int) : wrapInt64 (wrapInt64 a + b) = wrapInt64 (a + b) := by
  apply wrapInt64_congr
  rw [Int.add_emod, wrapInt64_emod, ← Int.add_emod]

theorem wrapInt64_mul_left (a c : Int) : wrapInt64 (wrapInt64 a * c) = wrapInt64 (a * c) := by
  apply wrapInt64_congr
  rw [Int.mul_emod, wrapInt64_emod, ← Int.mul_emod]

theorem wrapInt64_eq_self_iff_of_nonneg {x : Int} (h : 0 ≤ x) :
    wrapInt64 x = x ↔ x < 2 ^ 63 := by
  constructor
  · intro hx
    have := (wrapInt64_range x).2
    omega
  · intro hx
    exact wrapInt64_eq_self (by omega) hx

theorem Filetime.ticks_eq (ft : Filetime) (h : ft.WellFormed) :
    ft.ticks = ft.HighDateTime * 2 ^ 32 + ft.LowDateTime := by
  unfold Filetime.ticks
  rw [Nat.shiftLeft_eq, Nat.mul_comm, ← Nat.mul_add_lt_is_or h.1]

theorem filetimeTicksInt64_eq (ft : Filetime) (h : ft.WellFormed) :
    filetimeTicksInt64 ft = wrapInt64 (ft.ticks : Int) := by
  unfold filetimeTicksInt64
  rw [wrapInt64_add_left, ft.ticks_eq h]
  push_cast
  rfl

theorem filetimeToDuration_eq (ft : Filetime) (h : ft.WellFormed) :
    filetimeToDuration ft = wrapInt64 (100 * (ft.ticks : Int)) := by
  unfold filetimeToDuration
  rw [filetimeTicksInt64_eq ft h, wrapInt64_mul_left, Int.mul_comm]

theorem filetimeToDuration_exact (ft : Filetime) (h : ft.WellFormed)
    (hfit : 100 * (ft.ticks : Int) < 2 ^ 63) :
    filetimeToDuration ft = 100 * (ft.ticks : Int) := by
  rw [filetimeToDuration_eq ft h]
  exact wrapInt64_eq_self (by omega) hfit

theorem filetimeToDuration_mono (a b : Filetime) (ha : a.WellFormed) (hb : b.WellFormed)
    (hle : a.ticks ≤ b.ticks) (hfit : 100 * (b.ticks : Int) < 2 ^ 63) :
    filetimeToDuration a ≤ filetimeToDuration b := by
  rw [filetimeToDuration_exact a ha (by omega), filetimeToDuration_exact b hb hfit]
  omega

/-! ## The kill decision -/

/-- C3, as stated, fails: the sample (9223372036854775800ns, 100ns), which
`CPUTime` builds from counters of 92233720368547758 ticks and 1 tick, has a
total above 500ms and is not terminated, because the `int64` addition wraps;
the sample (500ms, 100ns) has a smaller total and is terminated, so the
decision is neither the comparison of the total with the threshold nor
monotone in the total. -/
theorem shouldKill_overflow :
    overflowingSample = { User := 9223372036854775800, System := 100 } ∧
    overflowingSample.User + overflowingSample.System > 500 * Millisecond ∧
    shouldKill overflowingSample = false ∧
    shouldKill overflowingSample ≠
      decide (overflowingSample.User + overflowingSample.System > 500 * Millisecond) ∧
    shouldKill { User := 500 * Millisecond, System := 100 } = true ∧
    500 * Millisecond + 100 ≤ overflowingSample.User + overflowingSample.System := by
  refine ⟨by decide, by decide, by decide, by decide, by decide, by decide⟩

/-- C3, amended: the kill decision is a function of the one sample; it compares
with 500ms the sum `User + System` reduced to an `int64`, that is
`(User + System + 2^63) mod 2^64 - 2^63`. For a sample whose sum lies in the
`int64` range the decision is `User + System > threshold`, strictly, so that a
sum equal to the threshold does not terminate (at 400ms the sample
(300ms,100ms) is kept and (200ms,250ms) is terminated), and among such samples
the decision is monotone in the sum. A sample whose sum lies between 2^63 and
2^64 is not terminated. -/
theorem shouldKill_spec (threshold : Int) (a b : CPUTimes) :
    shouldKill a =
      decide ((a.User + a.System + 2 ^ 63) % 2 ^ 64 - 2 ^ 63 > 500 * Millisecond) ∧
    exceedsThreshold threshold a =
      decide ((a.User + a.System + 2 ^ 63) % 2 ^ 64 - 2 ^ 63 > threshold) ∧
    (-2 ^ 63 ≤ a.User + a.System → a.User + a.System < 2 ^ 63 →
      shouldKill a = decide (a.User + a.System > 500 * Millisecond) ∧
      exceedsThreshold threshold a = decide (a.User + a.System > threshold) ∧
      (a.User + a.System = threshold → exceedsThreshold threshold a = false)) ∧
    (2 ^ 63 ≤ a.User + a.System → a.User + a.System < 2 ^ 64 → shouldKill a = false) ∧
    exceedsThreshold (400 * Millisecond) ⟨300 * Millisecond, 100 * Millisecond⟩ = false ∧
    exceedsThreshold (400 * Millisecond) ⟨200 * Millisecond, 250 * Millisecond⟩ = true ∧
    (-2 ^ 63 ≤ a.User + a.System → a.User + a.System < 2 ^ 63 →
      -2 ^ 63 ≤ b.User + b.System → b.User + b.System < 2 ^ 63 →
      a.User + a.System ≤ b.User + b.System →
      exceedsThreshold threshold a = true → exceedsThreshold threshold b = true) := by
  refine ⟨rfl, rfl, ?_, ?_, by decide, by decide, ?_⟩
  · intro h1 h2
    have hsum : durationAdd a.User a.System = a.User + a.System := wrapInt64_eq_self h1 h2
    refine ⟨?_, ?_, ?_⟩
    · simp only [shouldKill, exceedsThreshold, killThreshold, hsum]
    · simp only [exceedsThreshold, hsum]
    · intro h
      simp [exceedsThreshold, hsum, h]
  · intro h1 h2
    have hsum : durationAdd a.User a.System = a.User + a.System - 2 ^ 64 := by
      unfold durationAdd wrapInt64
      omega
    simp only [shouldKill, exceedsThreshold, killThreshold, hsum, Millisecond,
      decide_eq_false_iff_not]
    omega
  · intro ha1 ha2 hb1 hb2 hle ha
    have hsa : durationAdd a.User a.System = a.User + a.System := wrapInt64_eq_self ha1 ha2
    have hsb : durationAdd b.User b.System = b.User + b.System := wrapInt64_eq_self hb1 hb2
    simp only [exceedsThreshold, hsa, hsb, decide_eq_true_eq] at ha ⊢
    omega

/-- Witness of C3 (amended) at threshold 400ms: (200ms,250ms) is terminated,
hence so is the larger (300ms,250ms). -/
theorem shouldKill_spec_witness :
    exceedsThreshold (400 * Millisecond) ⟨300 * Millisecond, 250 * Millisecond⟩ = true :=
  (shouldKill_spec (400 * Millisecond) ⟨200 * Millisecond, 250 * Millisecond⟩
    ⟨300 * Millisecond, 250 * Millisecond⟩).2.2.2.2.2.2 (by decide) (by decide) (by decide)
    (by decide) (by decide) (by decide)

/-! ## The Filetime conversion -/

/-- C4, as stated, fails: for the Filetime with `HighDateTime = 21474836` and
`LowDateTime = 2061584303`, which is 92233720368547759 ticks, the code returns
-9223372036854775716 nanoseconds, not 100 times the tick count. -/
theorem filetimeToDuration_overflow :
    firstWrappedFiletime.WellFormed ∧
    firstWrappedFiletime.ticks = 92233720368547759 ∧
    filetimeToDuration firstWrappedFiletime = -9223372036854775716 ∧
    filetimeToDuration firstWrappedFiletime ≠ 100 * (firstWrappedFiletime.ticks : Int) := by
  refine ⟨by decide, by decide, by decide, by decide⟩

/-- C4, amended: for every Filetime the sum `high<<32 + low` equals
`high<<32 | low`, the local `n` is that tick count read as an `int64`, and the
result is 100 times the tick count reduced to an `int64`; it is exactly 100
times the tick count if and only if that product is below 2^63. -/
theorem filetimeToDuration_spec (ft : Filetime) (h : ft.WellFormed) :
    ft.HighDateTime <<< 32 + ft.LowDateTime = ft.HighDateTime <<< 32 ||| ft.LowDateTime ∧
    filetimeTicksInt64 ft = wrapInt64 (ft.ticks : Int) ∧
    filetimeToDuration ft = wrapInt64 (100 * (ft.ticks : Int)) ∧
    (filetimeToDuration ft = 100 * (ft.ticks : Int) ↔ 100 * (ft.ticks : Int) < 2 ^ 63) := by
  refine ⟨?_, filetimeTicksInt64_eq ft h, filetimeToDuration_eq ft h, ?_⟩
  · have := ft.ticks_eq h
    unfold Filetime.ticks at this
    rw [this, Nat.shiftLeft_eq]
  · rw [filetimeToDuration_eq ft h]
    exact wrapInt64_eq_self_iff_of_nonneg (by omega)

/-- Witness of C4 (amended): 10000000 ticks are one second. -/
theorem filetimeToDuration_spec_witness :
    (⟨10000000, 0⟩ : Filetime).WellFormed ∧ filetimeToDuration ⟨10000000, 0⟩ = Second :=
  ⟨by decide,
   ((filetimeToDuration_spec ⟨10000000, 0⟩ (by decide)).2.2.2.mpr (by decide)).trans
     (by decide)⟩

/-! ## The record built from a snapshot entry -/

theorem scanExeFile_eq (l : List Nat) (end_ : Nat) :
    scanExeFile l end_ = if 0 ∈ l then some (end_ + l.indexOf 0) else none := by
  induction l generalizing end_ with
  | nil => simp [scanExeFile]
  | cons c rest ih =>
    by_cases hc : c = 0
    · simp [scanExeFile, hc]
    · have hne : (0 : Nat) ≠ c := fun h => hc h.symm
      rw [scanExeFile, if_neg hc, ih, List.indexOf_cons_ne _ hc]
      simp only [List.mem_cons, hne, false_or]
      split
      · congr 1
        omega
      · rfl

theorem scanExeFile_zero (l : List Nat) :
    scanExeFile l 0 = if 0 ∈ l then some (l.indexOf 0) else none := by
  simpa using scanExeFile_eq l 0

theorem not_zero_before_indexOf (l : List Nat) (j : Nat) (hj : j < l.indexOf 0) :
    l[j]? ≠ some 0 := by
  induction l generalizing j with
  | nil => simp
  | cons a l ih =>
    by_cases ha : a = 0
    · rw [List.indexOf_cons_eq _ ha] at hj
      omega
    · rw [List.indexOf_cons_ne _ ha] at hj
      cases j with
      | zero => simpa using ha
      | succ j =>
        simp only [List.getElem?_cons_succ]
        exact ih j (by omega)

theorem take_indexOf_zero (l : List Nat) :
    l.take (l.indexOf 0) = l.takeWhile (fun c => decide (c ≠ 0)) := by
  induction l with
  | nil => simp
  | cons a l ih =>
    by_cases ha : a = 0
    · rw [List.indexOf_cons_eq _ ha]
      simp [List.takeWhile_cons, ha]
    · rw [List.indexOf_cons_ne _ ha]
      simp [List.takeWhile_cons, ha, ih]

/-- C10: for an entry whose `ExeFile` array (260 code units) holds a zero, the
scan of `newWindowsProcess` ends, without an index outside the array, at the
index of the first zero, and the record has `pid = ProcessID`,
`ppid = ParentProcessID` and `exe` the decoding of exactly the code units before
that zero; when the array holds no zero, the scan runs out of the array (the
run-time panic). -/
theorem newWindowsProcess_spec (UTF16ToString : List Nat → String) (e : PROCESSENTRY32)
    (hlen : e.ExeFile.length = MAX_PATH) :
    (0 ∈ e.ExeFile →
      e.ExeFile.indexOf 0 < MAX_PATH ∧
      e.ExeFile[e.ExeFile.indexOf 0]? = some 0 ∧
      (∀ j, j < e.ExeFile.indexOf 0 → e.ExeFile[j]? ≠ some 0) ∧
      scanExeFile e.ExeFile 0 = some (e.ExeFile.indexOf 0) ∧
      e.ExeFile.take (e.ExeFile.indexOf 0) = e.ExeFile.takeWhile (fun c => decide (c ≠ 0)) ∧
      newWindowsProcess UTF16ToString e =
        some { pid := (e.ProcessID : Int)
               ppid := (e.ParentProcessID : Int)
               exe := UTF16ToString (e.ExeFile.take (e.ExeFile.indexOf 0)) }) ∧
    (0 ∉ e.ExeFile →
      scanExeFile e.ExeFile 0 = none ∧ newWindowsProcess UTF16ToString e = none) := by
  constructor
  · intro hz
    have hlt : e.ExeFile.indexOf 0 < e.ExeFile.length := List.indexOf_lt_length.mpr hz
    have hscan : scanExeFile e.ExeFile 0 = some (e.ExeFile.indexOf 0) := by
      rw [scanExeFile_zero, if_pos hz]
    refine ⟨hlen ▸ hlt, List.getElem?_indexOf hz, not_zero_before_indexOf e.ExeFile, hscan,
      take_indexOf_zero e.ExeFile, ?_⟩
    simp [newWindowsProcess, hscan]
  · intro hz
    have hscan : scanExeFile e.ExeFile 0 = none := by
      rw [scanExeFile_zero, if_neg hz]
    exact ⟨hscan, by simp [newWindowsProcess, hscan]⟩

set_option maxRecDepth 16384 in
/-- Witness of C10 at the snapshot entry of `notepad.exe`. -/
theorem newWindowsProcess_spec_witness :
    notepadEntry.ExeFile.length = MAX_PATH ∧ 0 ∈ notepadEntry.ExeFile ∧
    notepadEntry.ExeFile.indexOf 0 = 11 ∧
    newWindowsProcess plainUTF16ToString notepadEntry =
      some { pid := 4242, ppid := 4, exe := "notepad.exe" } :=
  ⟨by decide, by decide, by decide,
   (((newWindowsProcess_spec plainUTF16ToString notepadEntry (by decide)).1
      (by decide)).2.2.2.2.2).trans (by decide)⟩

/-! ## Filtering and finding in the process table -/

theorem filterProcessesLoop_eq (name : String) (l filtered : List WindowsProcess) :
    filterProcessesLoop name l filtered =
      filtered ++ l.filter (fun p => decide (p.Executable = name)) := by
  induction l generalizing filtered with
  | nil => simp [filterProcessesLoop]
  | cons v rest ih =>
    by_cases hv : v.Executable = name
    · simp [filterProcessesLoop, hv, ih]
    · simp [filterProcessesLoop, hv, ih]

theorem findProcessLoop_eq (pid : Int) (l : List WindowsProcess) :
    findProcessLoop pid l = l.find? (fun p => decide (p.Pid = pid)) := by
  induction l with
  | nil => rfl
  | cons p ps ih =>
    by_cases hp : p.Pid = pid
    · simp [findProcessLoop, hp]
    · simp [findProcessLoop, hp, ih]

/-- C1: when enumeration returns the table, `FilterProcesses(name)` returns,
with no error, the records of the table whose `Executable()` is exactly `name`:
a sub-sequence of the table in the table's order, holding every record of that
name as often as the table does and nothing else, empty when nothing matches;
the comparison distinguishes upper and lower case. -/
theorem FilterProcesses_spec (E : Env σ) (name : String) (w w1 : World σ)
    (table : List WindowsProcess) (h : Processes E w = (.ok table, w1)) :
    FilterProcesses E name w =
      (.ok (table.filter (fun p => decide (p.Executable = name))), w1) ∧
    (table.filter (fun p => decide (p.Executable = name))).Sublist table ∧
    (∀ p, p ∈ table.filter (fun p => decide (p.Executable = name)) ↔
      p ∈ table ∧ p.Executable = name) ∧
    (∀ p, p.Executable = name →
      (table.filter (fun p => decide (p.Executable = name))).count p = table.count p) ∧
    ((∀ p ∈ table, p.Executable ≠ name) →
      FilterProcesses E name w = (.ok [], w1)) ∧
    filterProcessesLoop "notepad.exe"
      [⟨1, 0, "Notepad.exe"⟩, ⟨2, 0, "notepad.exe"⟩, ⟨3, 0, "NOTEPAD.EXE"⟩] [] =
      [⟨2, 0, "notepad.exe"⟩] := by
  have hres : FilterProcesses E name w =
      (.ok (table.filter (fun p => decide (p.Executable = name))), w1) := by
    unfold Processes at h
    simp [FilterProcesses, filterProcesses, h, filterProcessesLoop_eq]
  refine ⟨hres, List.filter_sublist _, ?_, ?_, ?_, by decide⟩
  · intro p
    simp [List.mem_filter]
  · intro p hp
    exact List.count_filter (by simpa using hp)
  · intro hnone
    rw [hres]
    have : table.filter (fun p => decide (p.Executable = name)) = [] := by
      rw [List.filter_eq_nil_iff]
      intro p hp
      simpa using hnone p hp
    rw [this]

/-- C2: `FindProcess(pid)` returns an error exactly when enumeration does, and
then the same error; when enumeration returns a table it returns `nil, nil` if
no record has that pid and otherwise the first record of the table, in
enumeration order, whose `Pid()` is the pid. -/
theorem FindProcess_spec (E : Env σ) (pid : Int) (w : World σ) :
    (∀ err w1, Processes E w = (.error err, w1) → FindProcess E pid w = (.error err, w1)) ∧
    ((∃ err, (FindProcess E pid w).1 = .error err) ↔ ∃ err, (Processes E w).1 = .error err) ∧
    (∀ table w1, Processes E w = (.ok table, w1) →
      ((∀ p ∈ table, p.Pid ≠ pid) → FindProcess E pid w = (.ok none, w1)) ∧
      (∀ pre p post, table = pre ++ p :: post → (∀ q ∈ pre, q.Pid ≠ pid) → p.Pid = pid →
        FindProcess E pid w = (.ok (some p), w1)) ∧
      (∀ p, FindProcess E pid w = (.ok (some p), w1) → p ∈ table ∧ p.Pid = pid) ∧
      ((∃ p ∈ table, p.Pid = pid) → ∃ p, FindProcess E pid w = (.ok (some p), w1))) := by
  refine ⟨?_, ?_, ?_⟩
  · intro err w1 h
    unfold Processes at h
    simp [FindProcess, findProcess, h]
  · unfold FindProcess findProcess Processes
    rcases hp : processes E w with ⟨r, w1⟩
    cases r <;> simp
  · intro table w1 h
    unfold Processes at h
    have hres : FindProcess E pid w =
        (.ok (table.find? (fun p => decide (p.Pid = pid))), w1) := by
      simp [FindProcess, findProcess, h, findProcessLoop_eq]
    refine ⟨?_, ?_, ?_, ?_⟩
    · intro hnone
      rw [hres]
      have : table.find? (fun p => decide (p.Pid = pid)) = none := by
        rw [List.find?_eq_none]
        intro p hp
        simpa using hnone p hp
      rw [this]
    · intro pre p post htable hpre hp
      rw [hres, htable]
      have : (pre ++ p :: post).find? (fun p => decide (p.Pid = pid)) = some p := by
        rw [List.find?_append]
        have hnone : pre.find? (fun p => decide (p.Pid = pid)) = none := by
          rw [List.find?_eq_none]
          intro q hq
          simpa using hpre q hq
        simp [hnone, hp]
      rw [this]
    · intro p hfound
      rw [hres] at hfound
      have hfind : table.find? (fun p => decide (p.Pid = pid)) = some p := by
        simpa using hfound
      exact ⟨List.mem_of_find?_eq_some hfind, by simpa using List.find?_some hfind⟩
    · rintro ⟨p, hp, hpid⟩
      rw [hres]
      cases hfind : table.find? (fun p => decide (p.Pid = pid)) with
      | none =>
        rw [List.find?_eq_none] at hfind
        exact absurd hpid (by simpa using hfind p hp)
      | some q => exact ⟨q, rfl⟩

/-! ## Acquiring the process handle -/

theorem openProcess_of_fun (E : Env σ) (pid : Nat) (f : Nat → Except GoError Nat)
    (hf : ∀ da s, (E.OpenProcess da pid s).1 = f da) (da : Nat) (w : World σ) :
    (openProcess E da pid w).1 = f da ∧
    (openProcess E da pid w).2.log = w.log ++ [.OpenProcess da pid (grantedHandle (f da))] := by
  have h := hf da w.os
  unfold openProcess
  rcases hcall : E.OpenProcess da pid w.os with ⟨r, s⟩
  rw [hcall] at h
  cases r with
  | ok handle => simp [← h, grantedHandle]
  | error err => simp [← h, grantedHandle]

theorem getProcessHandleLoop_of_fun (E : Env σ) (pid : Int) (f : Nat → Except GoError Nat)
    (hf : ∀ da s, (E.OpenProcess da (pid % 2 ^ 32).toNat s).1 = f da) :
    ∀ (table : List Nat) (last : Except GoError Nat) (w : World σ),
      (getProcessHandleLoop E pid table last w).2.log =
        w.log ++ (table.take ((table.takeWhile (fun da => !isGranted (f da))).length + 1)).map
          (fun da => Syscall.OpenProcess da (pid % 2 ^ 32).toNat (grantedHandle (f da))) ∧
      (getProcessHandleLoop E pid table last w).1 =
        (match table.find? (fun da => isGranted (f da)) with
         | some da => f da
         | none => (table.getLast?.map f).getD last) := by
  intro table
  induction table with
  | nil => intro last w; simp [getProcessHandleLoop]
  | cons da rest ih =>
    intro last w
    obtain ⟨h1, h2⟩ := openProcess_of_fun E (pid % 2 ^ 32).toNat f hf da w
    rcases hcall : openProcess E da (pid % 2 ^ 32).toNat w with ⟨r, w1⟩
    rw [hcall] at h1 h2
    simp only at h1 h2
    cases r with
    | ok handle =>
      have hg : isGranted (f da) = true := by rw [← h1]; rfl
      have hfind : (da :: rest).find? (fun da => isGranted (f da)) = some da := by
        simp [List.find?_cons, hg]
      have htake : (da :: rest).takeWhile (fun da => !isGranted (f da)) = [] := by
        simp [List.takeWhile_cons, hg]
      simp only [getProcessHandleLoop, hcall]
      rw [hfind, htake, h2]
      exact ⟨by simp, h1⟩
    | error err =>
      have hg : isGranted (f da) = false := by rw [← h1]; rfl
      have hfind : (da :: rest).find? (fun da => isGranted (f da)) =
          rest.find? (fun da => isGranted (f da)) := by
        simp [List.find?_cons, hg]
      have htake : (da :: rest).takeWhile (fun da => !isGranted (f da)) =
          da :: rest.takeWhile (fun da => !isGranted (f da)) := by
        simp [List.takeWhile_cons, hg]
      obtain ⟨ih1, ih2⟩ := ih (.error err) w1
      simp only [getProcessHandleLoop, hcall]
      rw [hfind, htake, ih1, ih2, h2]
      refine ⟨by simp, ?_⟩
      cases hrest : rest.find? (fun da => isGranted (f da)) with
      | some d => rfl
      | none =>
        cases rest with
        | nil => simpa using h1
        | cons d rest' =>
          rw [List.getLast?_cons_cons, List.getLast?_eq_getLast _ (List.cons_ne_nil d rest')]
          rfl

/-- C7: with `OpenProcess` a function `f` of the access mask, `getProcessHandle`
calls it on the levels of its table in table order, up to and including the
first level that is granted and no further; it returns the handle of that first
granted level; it returns an error exactly when every level of the table is
refused, and then the error of the last attempt. -/
theorem getProcessHandle_spec (E : Env σ) (pid : Int) (w : World σ)
    (f : Nat → Except GoError Nat)
    (hf : ∀ da s, (E.OpenProcess da (pid % 2 ^ 32).toNat s).1 = f da) :
    (getProcessHandle E pid w).2.log =
      w.log ++ (permissionTable.take
        ((permissionTable.takeWhile (fun da => !isGranted (f da))).length + 1)).map
          (fun da => Syscall.OpenProcess da (pid % 2 ^ 32).toNat (grantedHandle (f da))) ∧
    (∀ da, permissionTable.find? (fun da => isGranted (f da)) = some da →
      (getProcessHandle E pid w).1 = f da ∧
      ∃ handle, (getProcessHandle E pid w).1 = .ok handle) ∧
    ((∃ err, (getProcessHandle E pid w).1 = .error err) ↔
      ∀ da ∈ permissionTable, isGranted (f da) = false) ∧
    ((∀ da ∈ permissionTable, isGranted (f da) = false) →
      (getProcessHandle E pid w).1 = f (permissionTable.getLast (by decide))) := by
  obtain ⟨hlog, hres⟩ := getProcessHandleLoop_of_fun E pid f hf permissionTable (.ok 0) w
  have hgranted : ∀ da, permissionTable.find? (fun da => isGranted (f da)) = some da →
      (getProcessHandle E pid w).1 = f da ∧
      ∃ handle, (getProcessHandle E pid w).1 = .ok handle := by
    intro da hda
    have hval : (getProcessHandle E pid w).1 = f da := by
      unfold getProcessHandle
      rw [hres, hda]
    refine ⟨hval, ?_⟩
    have hg : isGranted (f da) = true := by simpa using List.find?_some hda
    rw [hval]
    cases hfd : f da with
    | ok handle => exact ⟨handle, rfl⟩
    | error err => rw [hfd] at hg; simp [isGranted] at hg
  have hrefused : (∀ da ∈ permissionTable, isGranted (f da) = false) →
      (getProcessHandle E pid w).1 = f (permissionTable.getLast (by decide)) := by
    intro hall
    have hnone : permissionTable.find? (fun da => isGranted (f da)) = none := by
      rw [List.find?_eq_none]
      intro da hda
      simp [hall da hda]
    unfold getProcessHandle
    rw [hres, hnone]
    rfl
  refine ⟨hlog, hgranted, ?_, hrefused⟩
  constructor
  · rintro ⟨err, herr⟩ da hda
    cases hfind : permissionTable.find? (fun da => isGranted (f da)) with
    | none =>
      rw [List.find?_eq_none] at hfind
      simpa using hfind da hda
    | some d =>
      obtain ⟨_, handle, hok⟩ := hgranted d hfind
      rw [hok] at herr
      cases herr
  · intro hall
    have hlast := hrefused hall
    have hg := hall (permissionTable.getLast (by decide)) (List.getLast_mem _)
    rw [hlast]
    cases hfd : f (permissionTable.getLast (by decide)) with
    | ok handle => rw [hfd] at hg; simp [isGranted] at hg
    | error err => exact ⟨err, rfl⟩

/-! ## Handles opened and closed -/

theorem openedBy_append (a b : List Syscall) : openedBy (a ++ b) = openedBy a ++ openedBy b := by
  induction a with
  | nil => rfl
  | cons c a ih =>
    cases c with
    | OpenProcess da pid handle => cases handle <;> simp [openedBy, ih]
    | CreateToolhelp32Snapshot handle =>
      by_cases hh : handle = INVALID_HANDLE_VALUE <;> simp [openedBy, ih, hh]
    | _ => simp [openedBy, ih]

theorem closedBy_append (a b : List Syscall) : closedBy (a ++ b) = closedBy a ++ closedBy b := by
  induction a with
  | nil => rfl
  | cons c a ih => cases c <;> simp [closedBy, ih]

theorem openProcess_cases (E : Env σ) (da pid : Nat) (w : World σ) :
    (∃ handle w1, openProcess E da pid w = (.ok handle, w1) ∧
      w1.openHandles = handle :: w.openHandles ∧
      w1.log = w.log ++ [.OpenProcess da pid (some handle)]) ∨
    (∃ err w1, openProcess E da pid w = (.error err, w1) ∧
      w1.openHandles = w.openHandles ∧ w1.log = w.log ++ [.OpenProcess da pid none]) := by
  unfold openProcess
  rcases E.OpenProcess da pid w.os with ⟨r, s⟩
  cases r with
  | ok handle => exact Or.inl ⟨handle, _, rfl, rfl, rfl⟩
  | error err => exact Or.inr ⟨err, _, rfl, rfl, rfl⟩

theorem getProcessTimes_cases (E : Env σ) (handle : Nat) (w : World σ) :
    ∃ succeeded, (getProcessTimes E handle w).2.openHandles = w.openHandles ∧
      (getProcessTimes E handle w).2.log = w.log ++ [.GetProcessTimes handle succeeded] ∧
      (succeeded = true ↔ ∃ times, (getProcessTimes E handle w).1 = .ok times) := by
  unfold getProcessTimes
  rcases E.GetProcessTimes handle w.os with ⟨r, s⟩
  cases r with
  | ok times => exact ⟨true, rfl, rfl, by simp⟩
  | error err => exact ⟨false, rfl, rfl, by simp⟩

theorem getProcessHandleLoop_handles (E : Env σ) (pid : Int) :
    ∀ (rest : List Nat) (da : Nat) (last : Except GoError Nat) (w : World σ),
      ∃ fails : List Syscall, openedBy fails = [] ∧ closedBy fails = [] ∧
        ((∃ err w1, getProcessHandleLoop E pid (da :: rest) last w = (.error err, w1) ∧
            w1.openHandles = w.openHandles ∧ w1.log = w.log ++ fails) ∨
         (∃ handle mask w1, getProcessHandleLoop E pid (da :: rest) last w = (.ok handle, w1) ∧
            w1.openHandles = handle :: w.openHandles ∧
            w1.log = w.log ++ fails ++ [.OpenProcess mask (pid % 2 ^ 32).toNat (some handle)])) := by
  intro rest
  induction rest with
  | nil =>
    intro da last w
    rcases openProcess_cases E da (pid % 2 ^ 32).toNat w with
      ⟨handle, w1, hcall, hopen, hlog⟩ | ⟨err, w1, hcall, hopen, hlog⟩
    · refine ⟨[], rfl, rfl, Or.inr ⟨handle, da, w1, ?_, hopen, by simpa using hlog⟩⟩
      simp only [getProcessHandleLoop, hcall]
    · refine ⟨[.OpenProcess da (pid % 2 ^ 32).toNat none], rfl, rfl,
        Or.inl ⟨err, w1, ?_, hopen, hlog⟩⟩
      simp only [getProcessHandleLoop, hcall]
  | cons d rest ih =>
    intro da last w
    rcases openProcess_cases E da (pid % 2 ^ 32).toNat w with
      ⟨handle, w1, hcall, hopen, hlog⟩ | ⟨err, w1, hcall, hopen, hlog⟩
    · refine ⟨[], rfl, rfl, Or.inr ⟨handle, da, w1, ?_, hopen, by simpa using hlog⟩⟩
      simp only [getProcessHandleLoop, hcall]
    · obtain ⟨fails, ho, hc, hcases⟩ := ih d (.error err) w1
      have hstep : getProcessHandleLoop E pid (da :: d :: rest) last w =
          getProcessHandleLoop E pid (d :: rest) (.error err) w1 := by
        rw [getProcessHandleLoop, hcall]
      refine ⟨.OpenProcess da (pid % 2 ^ 32).toNat none :: fails, ?_, ?_, ?_⟩
      · simpa [openedBy] using ho
      · simpa [closedBy] using hc
      · rcases hcases with ⟨e, w2, hrun, hopen2, hlog2⟩ | ⟨handle, mask, w2, hrun, hopen2, hlog2⟩
        · refine Or.inl ⟨e, w2, hstep.trans hrun, hopen2.trans hopen, ?_⟩
          rw [hlog2, hlog]
          simp
        · refine Or.inr ⟨handle, mask, w2, hstep.trans hrun, ?_, ?_⟩
          · rw [hopen2, hopen]
          · rw [hlog2, hlog]
            simp

theorem CPUTime_handles (E : Env σ) (p : WindowsProcess) (w : World σ) :
    ∃ fails : List Syscall, openedBy fails = [] ∧ closedBy fails = [] ∧
      (p.CPUTime E w).2.openHandles = w.openHandles ∧
      ((∃ err, (p.CPUTime E w).1 = .error err ∧ (p.CPUTime E w).2.log = w.log ++ fails) ∨
       (∃ handle mask succeeded,
          (succeeded = true ↔ ∃ cpuTime, (p.CPUTime E w).1 = .ok cpuTime) ∧
          (p.CPUTime E w).2.log =
            w.log ++ fails ++
              [.OpenProcess mask (p.pid % 2 ^ 32).toNat (some handle),
               .GetProcessTimes handle succeeded, .CloseHandle handle])) := by
  obtain ⟨fails, ho, hc, hcases⟩ := getProcessHandleLoop_handles E p.pid [0, 0, 0]
    PROCESS_QUERY_INFORMATION (.ok 0) w
  refine ⟨fails, ho, hc, ?_⟩
  rcases hcases with ⟨err, w1, hrun, hopen, hlog⟩ | ⟨handle, mask, w1, hrun, hopen, hlog⟩
  · have hget : getProcessHandle E p.pid w = (.error err, w1) := hrun
    have hcpu : p.CPUTime E w = (.error err, w1) := by
      simp only [WindowsProcess.CPUTime, hget]
    rw [hcpu]
    exact ⟨hopen, Or.inl ⟨err, rfl, hlog⟩⟩
  · have hget : getProcessHandle E p.pid w = (.ok handle, w1) := hrun
    obtain ⟨succeeded, hopen2, hlog2, hsucc⟩ := getProcessTimes_cases E handle w1
    rcases htimes : getProcessTimes E handle w1 with ⟨r, w2⟩
    rw [htimes] at hopen2 hlog2 hsucc
    simp only at hopen2 hlog2 hsucc
    have hclosed : (closeHandle E handle w2).openHandles = w.openHandles := by
      simp [closeHandle, hopen2, hopen]
    have hlog3 : (closeHandle E handle w2).log =
        w.log ++ fails ++ [.OpenProcess mask (p.pid % 2 ^ 32).toNat (some handle),
          .GetProcessTimes handle succeeded, .CloseHandle handle] := by
      simp [closeHandle, hlog2, hlog]
    cases r with
    | error err =>
      have hcpu : p.CPUTime E w = (.error err, closeHandle E handle w2) := by
        simp only [WindowsProcess.CPUTime, hget, htimes]
      rw [hcpu]
      refine ⟨hclosed, Or.inr ⟨handle, mask, succeeded, ?_, hlog3⟩⟩
      simpa using hsucc
    | ok times =>
      have hcpu : p.CPUTime E w =
          (.ok { User := filetimeToDuration times.userTime
                 System := filetimeToDuration times.kernelTime },
           closeHandle E handle w2) := by
        simp only [WindowsProcess.CPUTime, hget, htimes]
      rw [hcpu]
      refine ⟨hclosed, Or.inr ⟨handle, mask, succeeded, ?_, hlog3⟩⟩
      simpa using hsucc

theorem processesLoop_handles (E : Env σ) (handle : Nat) :
    ∀ (rest : List PROCESSENTRY32) (entry : PROCESSENTRY32) (results : List WindowsProcess)
      (w : World σ),
      ∃ nexts : List Syscall, openedBy nexts = [] ∧ closedBy nexts = [] ∧
        (processesLoop E handle entry rest results w).2.openHandles = w.openHandles ∧
        (processesLoop E handle entry rest results w).2.log = w.log ++ nexts := by
  intro rest
  induction rest with
  | nil =>
    intro entry results w
    unfold processesLoop
    cases newWindowsProcess E.UTF16ToString entry with
    | none => exact ⟨[], rfl, rfl, rfl, by simp⟩
    | some p => exact ⟨[.Process32Next handle false], rfl, rfl, rfl, rfl⟩
  | cons next rest ih =>
    intro entry results w
    unfold processesLoop
    cases newWindowsProcess E.UTF16ToString entry with
    | none => exact ⟨[], rfl, rfl, rfl, by simp⟩
    | some p =>
      obtain ⟨nexts, ho, hc, hopen, hlog⟩ :=
        ih next (results ++ [p]) (record (.Process32Next handle true) w)
      refine ⟨.Process32Next handle true :: nexts, ?_, ?_, ?_, ?_⟩
      · simpa [openedBy] using ho
      · simpa [closedBy] using hc
      · simpa [record] using hopen
      · simpa [record] using hlog

theorem processes_handles (E : Env σ) (w : World σ) :
    ∃ (handle : Nat) (walked : List Syscall), openedBy walked = [] ∧ closedBy walked = [] ∧
      (processes E w).2.openHandles =
        (if handle = INVALID_HANDLE_VALUE then w.openHandles
         else handle :: w.openHandles).erase handle ∧
      (processes E w).2.log =
        w.log ++ [.CreateToolhelp32Snapshot handle] ++ walked ++ [.CloseHandle handle] := by
  unfold processes
  rcases hsnap : createToolhelp32Snapshot E w with ⟨handle, w1⟩
  have hopen1 : w1.openHandles =
      if handle = INVALID_HANDLE_VALUE then w.openHandles else handle :: w.openHandles := by
    unfold createToolhelp32Snapshot at hsnap
    cases hsnap
    rfl
  have hlog1 : w1.log = w.log ++ [.CreateToolhelp32Snapshot handle] := by
    unfold createToolhelp32Snapshot at hsnap
    cases hsnap
    rfl
  simp only [Nat.not_lt_zero, if_false]
  cases hwalk : E.Process32Walk handle w1.os with
  | nil =>
    refine ⟨handle, [.Process32First handle false], rfl, rfl, ?_, ?_⟩
    · simp [closeHandle, record, hopen1]
    · simp [closeHandle, record, hlog1]
  | cons entry rest =>
    obtain ⟨nexts, ho, hc, hopen, hlog⟩ :=
      processesLoop_handles E handle rest entry [] (record (.Process32First handle true) w1)
    refine ⟨handle, .Process32First handle true :: nexts, ?_, ?_, ?_, ?_⟩
    · simpa [openedBy] using ho
    · simpa [closedBy] using hc
    · simp only [closeHandle, hopen]
      simp only [record, hopen1]
    · simp only [closeHandle, hlog]
      simp [record, hlog1]

/-- C6: `CPUTime` and `processes` leave the bag of open handles as they found
it (for `processes`, given that `INVALID_HANDLE_VALUE` is not an open handle):
whatever the operating system answers, the handle that the call opens is
passed to `CloseHandle` exactly once, as the last system call of the call, on
the success path and on every error path; and `getProcessHandle` closes
nothing, opens at most one handle, and makes no attempt after the one that
succeeded. -/
theorem handles_released (E : Env σ) (p : WindowsProcess) (w : World σ) :
    ((p.CPUTime E w).2.openHandles = w.openHandles ∧
      ∃ calls, (p.CPUTime E w).2.log = w.log ++ calls ∧
        closedBy calls = openedBy calls ∧ (openedBy calls).length ≤ 1 ∧
        ∀ handle ∈ openedBy calls, calls.getLast? = some (.CloseHandle handle)) ∧
    ((INVALID_HANDLE_VALUE ∉ w.openHandles → (processes E w).2.openHandles = w.openHandles) ∧
      ∃ calls handle, (processes E w).2.log = w.log ++ calls ∧
        calls.head? = some (.CreateToolhelp32Snapshot handle) ∧
        openedBy calls = (if handle = INVALID_HANDLE_VALUE then [] else [handle]) ∧
        closedBy calls = [handle] ∧
        calls.getLast? = some (.CloseHandle handle)) ∧
    (∃ calls, (getProcessHandle E p.pid w).2.log = w.log ++ calls ∧
      closedBy calls = [] ∧ (openedBy calls).length ≤ 1 ∧
      (∀ handle ∈ openedBy calls,
        (getProcessHandle E p.pid w).1 = .ok handle ∧
        (getProcessHandle E p.pid w).2.openHandles = handle :: w.openHandles ∧
        ∃ mask, calls.getLast? =
          some (.OpenProcess mask (p.pid % 2 ^ 32).toNat (some handle))) ∧
      (∀ err, (getProcessHandle E p.pid w).1 = .error err →
        openedBy calls = [] ∧ (getProcessHandle E p.pid w).2.openHandles = w.openHandles)) := by
  refine ⟨?_, ?_, ?_⟩
  · obtain ⟨fails, ho, hc, hopen, hcases⟩ := CPUTime_handles E p w
    refine ⟨hopen, ?_⟩
    rcases hcases with ⟨err, _, hlog⟩ | ⟨handle, mask, succeeded, _, hlog⟩
    · exact ⟨fails, hlog, by rw [ho, hc], by simp [ho], by simp [ho]⟩
    · refine ⟨fails ++ [.OpenProcess mask (p.pid % 2 ^ 32).toNat (some handle),
        .GetProcessTimes handle succeeded, .CloseHandle handle], ?_, ?_, ?_, ?_⟩
      · rw [hlog, List.append_assoc]
      · rw [openedBy_append, closedBy_append, ho, hc]
        rfl
      · rw [openedBy_append, ho]
        simp [openedBy]
      · intro h hh
        rw [openedBy_append, ho] at hh
        simp only [openedBy, List.nil_append, List.mem_singleton] at hh
        subst hh
        simp
  · obtain ⟨handle, walked, ho, hc, hopen, hlog⟩ := processes_handles E w
    constructor
    · intro hw
      rw [hopen]
      by_cases hh : handle = INVALID_HANDLE_VALUE
      · rw [if_pos hh, hh]
        exact List.erase_of_not_mem hw
      · rw [if_neg hh]
        exact List.erase_cons_head _ _
    · refine ⟨[.CreateToolhelp32Snapshot handle] ++ walked ++ [.CloseHandle handle], handle,
        ?_, by simp, ?_, ?_, List.getLast?_concat _⟩
      · rw [hlog]
        simp
      · rw [openedBy_append, openedBy_append, ho]
        by_cases hh : handle = INVALID_HANDLE_VALUE <;> simp [openedBy, hh]
      · rw [closedBy_append, closedBy_append, hc]
        simp [closedBy]
  · obtain ⟨fails, ho, hc, hcases⟩ := getProcessHandleLoop_handles E p.pid [0, 0, 0]
      PROCESS_QUERY_INFORMATION (.ok 0) w
    rcases hcases with ⟨err, w1, hrun, hopen, hlog⟩ | ⟨handle, mask, w1, hrun, hopen, hlog⟩
    · have hget : getProcessHandle E p.pid w = (.error err, w1) := hrun
      rw [hget]
      exact ⟨fails, hlog, hc, by simp [ho], by simp [ho], fun _ _ => ⟨ho, hopen⟩⟩
    · have hget : getProcessHandle E p.pid w = (.ok handle, w1) := hrun
      rw [hget]
      refine ⟨fails ++ [.OpenProcess mask (p.pid % 2 ^ 32).toNat (some handle)], ?_, ?_, ?_,
        ?_, ?_⟩
      · rw [hlog, List.append_assoc]
      · rw [closedBy_append, hc]
        rfl
      · rw [openedBy_append, ho]
        simp [openedBy]
      · intro h hh
        rw [openedBy_append, ho] at hh
        simp only [openedBy, List.nil_append, List.mem_singleton] at hh
        subst hh
        exact ⟨rfl, hopen, mask, by simp⟩
      · intro err herr
        cases herr

/-! ## Successive CPU time samples -/

/-- C5, as stated, fails: between two queries of the same process the user
counter grows from 92233720368547758 to 92233720368547759 ticks and the kernel
counter stays at 0, yet the later sample's `User` is below the earlier one's. -/
theorem CPUTime_not_monotone :
    (notepadProcess.CPUTime overflowEnv freshWorld).1 =
      .ok { User := 9223372036854775800, System := 0 } ∧
    (notepadProcess.CPUTime overflowEnv (notepadProcess.CPUTime overflowEnv freshWorld).2).1 =
      .ok { User := -9223372036854775716, System := 0 } ∧
    overflowingTimes 0 = .ok (timesOfTicks lastExactFiletime ⟨0, 0⟩) ∧
    overflowingTimes 1 = .ok (timesOfTicks firstWrappedFiletime ⟨0, 0⟩) ∧
    lastExactFiletime.ticks ≤ firstWrappedFiletime.ticks ∧
    filetimeToDuration firstWrappedFiletime < filetimeToDuration lastExactFiletime := by
  refine ⟨by decide, by decide, by decide, by decide, by decide, by decide⟩

/-- C5, amended: when two `CPUTime` queries of a process succeed, the user and
kernel tick counters that the operating system reports do not decrease from
the first to the second, and 100 times each later counter is below 2^63
nanoseconds, then the later sample's `User` and `System` are at least the
earlier ones; each is 100 times its tick counter. -/
theorem CPUTime_monotone (E : Env σ) (p : WindowsProcess) (w u v w' u' v' : World σ)
    (handle handle' : Nat) (times times' : ProcessTimes)
    (hh : getProcessHandle E p.pid w = (.ok handle, u))
    (ht : getProcessTimes E handle u = (.ok times, v))
    (hh' : getProcessHandle E p.pid w' = (.ok handle', u'))
    (ht' : getProcessTimes E handle' u' = (.ok times', v'))
    (hwf : times.userTime.WellFormed ∧ times.kernelTime.WellFormed)
    (hwf' : times'.userTime.WellFormed ∧ times'.kernelTime.WellFormed)
    (huser : times.userTime.ticks ≤ times'.userTime.ticks)
    (hkernel : times.kernelTime.ticks ≤ times'.kernelTime.ticks)
    (hfitUser : 100 * (times'.userTime.ticks : Int) < 2 ^ 63)
    (hfitKernel : 100 * (times'.kernelTime.ticks : Int) < 2 ^ 63) :
    ∃ c c', (p.CPUTime E w).1 = .ok c ∧ (p.CPUTime E w').1 = .ok c' ∧
      c.User = 100 * (times.userTime.ticks : Int) ∧
      c.System = 100 * (times.kernelTime.ticks : Int) ∧
      c'.User = 100 * (times'.userTime.ticks : Int) ∧
      c'.System = 100 * (times'.kernelTime.ticks : Int) ∧
      c.User ≤ c'.User ∧ c.System ≤ c'.System := by
  refine ⟨⟨filetimeToDuration times.userTime, filetimeToDuration times.kernelTime⟩,
    ⟨filetimeToDuration times'.userTime, filetimeToDuration times'.kernelTime⟩, ?_, ?_,
    filetimeToDuration_exact _ hwf.1 (by omega), filetimeToDuration_exact _ hwf.2 (by omega),
    filetimeToDuration_exact _ hwf'.1 hfitUser, filetimeToDuration_exact _ hwf'.2 hfitKernel,
    filetimeToDuration_mono _ _ hwf.1 hwf'.1 huser hfitUser,
    filetimeToDuration_mono _ _ hwf.2 hwf'.2 hkernel hfitKernel⟩
  · simp only [WindowsProcess.CPUTime, hh, ht]
  · simp only [WindowsProcess.CPUTime, hh', ht']

/-- Witness of C5 (amended): the user counter grows from 0.3s to 0.6s between
two queries of process 4242. -/
theorem CPUTime_monotone_witness :
    ∃ c c',
      (notepadProcess.CPUTime (scriptedEnv (fun _ => .ok 7) growingTimes 9 []) freshWorld).1 =
        .ok c ∧
      (notepadProcess.CPUTime (scriptedEnv (fun _ => .ok 7) growingTimes 9 [])
        (notepadProcess.CPUTime (scriptedEnv (fun _ => .ok 7) growingTimes 9 [])
          freshWorld).2).1 = .ok c' ∧
      c.User = 100 * (3000000 : Int) ∧ c.System = 100 * (1000000 : Int) ∧
      c'.User = 100 * (6000000 : Int) ∧ c'.System = 100 * (1000000 : Int) ∧
      c.User ≤ c'.User ∧ c.System ≤ c'.System :=
  CPUTime_monotone (scriptedEnv (fun _ => .ok 7) growingTimes 9 []) notepadProcess
    freshWorld _ _
    (notepadProcess.CPUTime (scriptedEnv (fun _ => .ok 7) growingTimes 9 []) freshWorld).2 _ _
    7 7 (timesOfTicks ⟨3000000, 0⟩ ⟨1000000, 0⟩) (timesOfTicks ⟨6000000, 0⟩ ⟨1000000, 0⟩)
    rfl rfl rfl rfl (by decide) (by decide) (by decide) (by decide) (by decide) (by decide)

/-! ## One cycle of the watchdog loop -/

theorem callsSucceed_of_answers (prov : Provider σ P) :
    ∀ (procs : List P) (s : σ),
      (∀ proc ∈ procs, ∀ t, ∃ cpuTime t1, prov.CPUTime proc t = (.ok cpuTime, t1)) →
      (∀ proc ∈ procs, ∀ t, ∃ u t1, prov.Kill proc t = (.ok u, t1)) →
      callsSucceed prov procs s := by
  intro procs
  induction procs with
  | nil => intro s _ _; trivial
  | cons proc rest ih =>
    intro s hcpu hkill
    obtain ⟨cpuTime, s1, h1⟩ := hcpu proc (List.mem_cons_self _ _) s
    have hcpu' : ∀ q ∈ rest, ∀ t, ∃ cpuTime t1, prov.CPUTime q t = (.ok cpuTime, t1) :=
      fun q hq => hcpu q (List.mem_cons_of_mem _ hq)
    have hkill' : ∀ q ∈ rest, ∀ t, ∃ u t1, prov.Kill q t = (.ok u, t1) :=
      fun q hq => hkill q (List.mem_cons_of_mem _ hq)
    refine ⟨cpuTime, s1, h1, ?_⟩
    by_cases hk : shouldKill cpuTime = true
    · obtain ⟨u, s2, h2⟩ := hkill proc (List.mem_cons_self _ _) s1
      exact Or.inl ⟨hk, u, s2, h2, ih s2 hcpu' hkill'⟩
    · exact Or.inr ⟨by simpa using hk, ih s1 hcpu' hkill'⟩

set_option maxRecDepth 16384 in
/-- Witness of C1: the snapshot holds `System` and `notepad.exe`. -/
theorem FilterProcesses_spec_witness :
    FilterProcesses exampleEnv "notepad.exe" freshWorld =
      (.ok [notepadProcess], afterEnumeration) :=
  (FilterProcesses_spec exampleEnv "notepad.exe" freshWorld afterEnumeration
    [systemProcess, notepadProcess] (by decide)).1.trans (by decide)

set_option maxRecDepth 16384 in
/-- Witness of C2: process 4242 is the second record of the snapshot. -/
theorem FindProcess_spec_witness :
    FindProcess exampleEnv 4242 freshWorld = (.ok (some notepadProcess), afterEnumeration) :=
  ((FindProcess_spec exampleEnv 4242 freshWorld).2.2 [systemProcess, notepadProcess]
    afterEnumeration (by decide)).2.1 [systemProcess] notepadProcess [] rfl (by decide) rfl

/-- Witness of C6: one enumeration from a world with nothing open. -/
theorem handles_released_witness :
    (processes exampleEnv freshWorld).2.openHandles = freshWorld.openHandles :=
  (handles_released exampleEnv notepadProcess freshWorld).2.1.1 (by decide)

/-- Witness of C7: the first level is refused, the second is granted and no
third attempt is made. -/
theorem getProcessHandle_spec_witness :
    (getProcessHandle (scriptedEnv fallbackGrant growingTimes 9 []) 4242 freshWorld).2.log =
      [.OpenProcess 1024 4242 none, .OpenProcess 0 4242 (some 7)] :=
  (getProcessHandle_spec (scriptedEnv fallbackGrant growingTimes 9 []) 4242 freshWorld
    fallbackGrant (fun _ _ => rfl)).1.trans (by decide)

set_option maxRecDepth 16384 in
/-- Two cycles of the watchdog over the package `ps` on the scripted operating
system: `notepad.exe` has used 0.4s at the first cycle and is kept, 0.7s at the
second and is killed; no handle stays open. -/
theorem main_exampleEnv :
    (main (windowsProvider exampleEnv) 2 freshWorld).1 = .completed ∧
    (main (windowsProvider exampleEnv) 2 freshWorld).2.1.openHandles = [] ∧
    (main (windowsProvider exampleEnv) 2 freshWorld).2.2 =
      [.callCPUTime notepadProcess (.ok { User := 300 * Millisecond, System := 100 * Millisecond }),
       .printObservation notepadProcess { User := 300 * Millisecond, System := 100 * Millisecond },
       .sleep (10 * Second),
       .callCPUTime notepadProcess (.ok { User := 600 * Millisecond, System := 100 * Millisecond }),
       .printObservation notepadProcess { User := 600 * Millisecond, System := 100 * Millisecond },
       .printKilling notepadProcess, .callKill notepadProcess (.ok ()),
       .sleep (10 * Second)] := by
  refine ⟨by decide, by decide, by decide⟩

end KillIdleProcess
